import Mathlib

/-!
Verification of the DentalBook appointment application.

This file gives a shallow embedding, in Lean, of the behavioural core of the
DentalBook web application (booking-form validation, conflict and blocked-date
checking, the emergency-reschedule operation, recurring-appointment fan-out,
calendar-grid generation, and the revenue aggregation of the reports page),
together with theorems settling the behavioural claims made about it.

Dates.  The application stores calendar days as ISO `YYYY-MM-DD` strings and
manipulates them through the JavaScript `Date` object.  A date-only ISO string
parses to UTC midnight, and the date arithmetic used by the application
(`setDate`, `getDate`, `getDay`, month-overflow in the `Date` constructor,
`toISOString`) is exact civil-calendar arithmetic on whole days; we assume a
UTC environment, under which local-time accessors agree with UTC ones.  We
therefore model a `Date` holding a calendar day by the number of days it lies
after 0000-03-01 (proleptic Gregorian), using the standard civil-from-days /
days-from-civil conversion algorithms, which we verify below.
-/

namespace DentalBook

/-- Gregorian leap-year test. -/
def leapYear (y : Nat) : Bool :=
  (y % 4 == 0 && y % 100 != 0) || y % 400 == 0

/-- Number of days in civil month `m` (1..12) of year `y`. -/
def monthLength (y m : Nat) : Nat :=
  if m = 2 then (if leapYear y then 29 else 28)
  else if m = 4 ∨ m = 6 ∨ m = 9 ∨ m = 11 then 30 else 31

/-- Civil calendar date: year, month 1..12, day 1..31. -/
structure Ymd where
  year : Nat
  month : Nat
  day : Nat
deriving DecidableEq, Repr

/-- Year shifted so that the year starts on March 1 (used by the
days-from-civil algorithm); January and February belong to the previous
shifted year. -/
def shiftedYear (y m : Nat) : Nat :=
  if m ≤ 2 then y - 1 else y

/-- Day-of-shifted-year of the first day of civil month `m`
(March 1 is day 0). -/
def monthDoy (m : Nat) : Nat :=
  (153 * (if 3 ≤ m then m - 3 else m + 9) + 2) / 5

/-- Day count of the civil date `(y, m, d)` measured from 0000-03-01,
for `y ≥ 1`.  This is the standard days-from-civil algorithm over
400-year eras. -/
def natDays (y m d : Nat) : Nat :=
  (shiftedYear y m / 400) * 146097 + (shiftedYear y m % 400) * 365
    + (shiftedYear y m % 400) / 4 - (shiftedYear y m % 400) / 100
    + (monthDoy m + (d - 1))

/-- Year-of-era (0..399) of a day-of-era (0..146096); the core step of the
civil-from-days algorithm. -/
def yoeOfDoe (doe : Nat) : Nat :=
  (doe - doe / 1460 + doe / 36524 - doe / 146096) / 365

/-- Day-of-shifted-year (0..365) of a day-of-era. -/
def doyOfDoe (doe : Nat) : Nat :=
  doe - (365 * yoeOfDoe doe + yoeOfDoe doe / 4 - yoeOfDoe doe / 100)

/-- Shifted month index (0..11, 0 = March) of a day-of-shifted-year. -/
def mpOfDoy (doy : Nat) : Nat :=
  (5 * doy + 2) / 153

/-- Inverse conversion: civil date of a day count from 0000-03-01; the
standard civil-from-days algorithm. -/
def civilOf (z : Nat) : Ymd :=
  let doe := z % 146097
  let yoe := yoeOfDoe doe
  let doy := doyOfDoe doe
  let mp := mpOfDoy doy
  let d := doy - (153 * mp + 2) / 5 + 1
  let m := if mp < 10 then mp + 3 else mp - 9
  let y := yoe + (z / 146097) * 400
  ⟨if m ≤ 2 then y + 1 else y, m, d⟩

/-- Weekday of a day count, JavaScript `getDay` convention
(0 = Sunday .. 6 = Saturday).  The offset is fixed by
1970-01-01 (day 719468) being a Thursday (4). -/
def weekday (z : Nat) : Nat :=
  (z + 3) % 7

/-- Day count of the first day of the month given by JavaScript year `y` and
0-based month index `k`, with the `Date` constructor's month-overflow
normalisation (`k ≥ 12` rolls into later years). -/
def jsMonthStart (y k : Nat) : Nat :=
  natDays (y + k / 12) (k % 12 + 1) 1

/-- ISO `YYYY-MM-DD` rendering of a civil date (JavaScript `toISOString`
date part, and the `formatDate` helpers of the application). -/
def pad2 (n : Nat) : String :=
  if n < 10 then "0" ++ toString n else toString n

def pad4 (n : Nat) : String :=
  if n < 10 then "000" ++ toString n
  else if n < 100 then "00" ++ toString n
  else if n < 1000 then "0" ++ toString n
  else toString n

def isoOfYmd (c : Ymd) : String :=
  pad4 c.year ++ "-" ++ pad2 c.month ++ "-" ++ pad2 c.day

def isoOfDay (z : Nat) : String :=
  isoOfYmd (civilOf z)

/-- JavaScript `d.setDate(n)` on a date `z`: day-of-month set to `n ≥ 1` in
the month of `z`, overflowing into later months when `n` exceeds the month
length. -/
def jsSetDate (z n : Nat) : Nat :=
  z - ((civilOf z).day - 1) + n - 1

/-- JavaScript `d.setMonth(k)` on a date `z`: 0-based month index set to `k`
(overflowing into later years), keeping the day-of-month (overflowing into
the next month when the day exceeds the target month length). -/
def jsSetMonth (z k : Nat) : Nat :=
  jsMonthStart (civilOf z).year k + ((civilOf z).day - 1)

/-! ## Application data model

Types from `src/types` (`part_003`): appointment statuses, the `Appointment`
record, and the static procedure price list.  TypeScript optional fields
(`isRecurring?`, `occurrences?`) are modelled with `Option`; JavaScript
truthiness of a number is "nonzero", of an optional field "present and
truthy". -/

inductive AppointmentStatus where
  | pending
  | scheduled
  | completed
  | cancelled
  | noShow
  | rescheduled
deriving DecidableEq, Repr, BEq

structure Appointment where
  id : String
  patientId : String
  patientName : String
  procedureType : String
  procedurePrice : Nat
  price : Nat
  date : String
  time : String
  notes : String
  status : AppointmentStatus
  isRecurring : Option Bool
  occurrences : Option Nat
deriving DecidableEq, Repr

/-- JavaScript `x || y` for numbers: `y` when `x` is falsy (zero). -/
def jsOrNat (x y : Nat) : Nat :=
  if x = 0 then y else x

/-- JavaScript `x || y` for an optional number `x`: `y` when `x` is absent
or zero. -/
def jsOrOptNat (x : Option Nat) (y : Nat) : Nat :=
  match x with
  | none => y
  | some n => if n = 0 then y else n

/-! ## Reports aggregation (`ReportsPage`, `part_002`) -/

/-- Amount an appointment contributes inside `calculateRevenue`:
`(apt.procedurePrice || apt.price || 0) * (apt.occurrences || 1)`. -/
def revenueAmount (apt : Appointment) : Nat :=
  jsOrNat (jsOrNat apt.procedurePrice apt.price) 0 * jsOrOptNat apt.occurrences 1

/-- `calculateRevenue` (`part_002` lines 36-43): filter to `completed`,
then reduce adding each appointment's amount to the accumulator. -/
def calculateRevenue (appointments : List Appointment) : Nat :=
  (appointments.filter (fun apt => apt.status == .completed)).foldl
    (fun total apt => total + revenueAmount apt) 0

/-- `isWithinRange` (`part_002` lines 86-96) over the two date-filter input
strings; an empty string is falsy (no bound).  JavaScript compares the ISO
date strings lexicographically. -/
def isWithinRange (startDate endDate date : String) : Bool :=
  if startDate ≠ "" ∧ endDate ≠ "" then
    decide (startDate ≤ date) && decide (date ≤ endDate)
  else if startDate ≠ "" then decide (startDate ≤ date)
  else if endDate ≠ "" then decide (date ≤ endDate)
  else true

/-- `totalRevenue` (`part_002` lines 97-98): revenue of the loaded
appointments restricted to the active date filter. -/
def totalRevenue (startDate endDate : String)
    (appointments : List Appointment) : Nat :=
  calculateRevenue
    (appointments.filter (fun apt => isWithinRange startDate endDate apt.date))

/-- `getAppointmentTotalPrice` (`part_003` lines 67-73): base price times
occurrences only when `appointment.isRecurring && appointment.occurrences
&& appointment.occurrences > 1`. -/
def getAppointmentTotalPrice (appointment : Appointment) : Nat :=
  match appointment.occurrences with
  | some n =>
      if appointment.isRecurring = some true ∧ n ≠ 0 ∧ 1 < n then
        appointment.price * n
      else appointment.price
  | none => appointment.price

/-! ## Blocked dates (`firestore.getBlockedDates`, `BookingForm.isDateBlocked`,
`App.loadBlockedDates`) -/

/-- `getBlockedDates` (`firestore.ts` lines 127-142).  The input models the
outcome of the `getDocs` fetch: either a failure, or the list of stored
blocked-date documents, each of which may or may not carry a well-formed
`dates` array.  On failure the catch block returns the empty list; on
success the date arrays are concatenated and deduplicated
(`[...new Set(allDates)]`). -/
def getBlockedDates
    (fetch : Except String (List (Option (List String)))) : List String :=
  match fetch with
  | .error _ => []
  | .ok docs =>
      (docs.foldl
        (fun allDates doc =>
          match doc with
          | some dates => allDates ++ dates
          | none => allDates) []).dedup

/-- `isDateBlocked` (`BookingForm.tsx` lines 90-92, and identically in the
staff modals): membership of the date string in the loaded blocked-date
list. -/
def isDateBlocked (blockedDates : List String) (date : String) : Bool :=
  blockedDates.contains date

/-- The `App.tsx` `loadBlockedDates` effect (lines 19-30): the component
state after a load is the result of `getBlockedDates`; a fetch failure is
absorbed inside `getBlockedDates`, so the state is set to the empty list. -/
def appBlockedDatesAfterLoad
    (fetch : Except String (List (Option (List String)))) : List String :=
  getBlockedDates fetch

/-! ## Phone validation (`BookingForm.isValidPhoneNumber`) -/

/-- Matcher for the regular expression `^09\d{9}$` applied to a character
list. -/
def matches09 (l : List Char) : Bool :=
  match l with
  | c0 :: c1 :: rest =>
      c0 == '0' && c1 == '9' && rest.length == 9 && rest.all Char.isDigit
  | _ => false

/-- `isValidPhoneNumber` (`BookingForm.tsx` lines 117-122): strip non-digit
characters (`replace(/\D/g, "")`), then test `^09\d{9}$`. -/
def isValidPhoneNumber (phone : String) : Bool :=
  matches09 (phone.data.filter Char.isDigit)

/-! ## Booking form state and availability checks (`BookingForm.tsx`) -/

structure PatientInfo where
  firstName : String
  lastName : String
  age : Nat
  sex : String
deriving DecidableEq, Repr

structure AppointmentDetails where
  procedureType : String
  date : String
  time : String
  notes : String
deriving DecidableEq, Repr

/-- The booking form's paired roster state (`patients`, `appointments`),
both initialised with a single blank entry (`BookingForm.tsx` lines
40-51). -/
structure BookingFormState where
  patients : List PatientInfo
  appointments : List AppointmentDetails
deriving DecidableEq, Repr

def initialBookingFormState : BookingFormState :=
  ⟨[⟨"", "", 0, "male"⟩], [⟨"", "", "", ""⟩]⟩

/-- The state-changing handlers of the booking form that touch the paired
lists.  `updatePatient` / `updateAppointment` replace the entry at an
(in-range, UI-supplied) index with an updated entry, modelled by
`List.set`. -/
inductive BookingFormAction where
  | addPatientForm
  | removePatientForm (index : Nat)
  | updatePatient (index : Nat) (p : PatientInfo)
  | updateAppointment (index : Nat) (a : AppointmentDetails)

/-- One handler step (`BookingForm.tsx` lines 54-83).  `removePatientForm`
filters out the given index from both lists, guarded by
`patients.length > 1`; filtering out an index is `List.eraseIdx` (and is the
identity when the index is out of range, as in the source). -/
def applyBookingFormAction (s : BookingFormState)
    (act : BookingFormAction) : BookingFormState :=
  match act with
  | .addPatientForm =>
      ⟨s.patients ++ [⟨"", "", 0, "male"⟩], s.appointments ++ [⟨"", "", "", ""⟩]⟩
  | .removePatientForm i =>
      if 1 < s.patients.length then
        ⟨s.patients.eraseIdx i, s.appointments.eraseIdx i⟩
      else s
  | .updatePatient i p => ⟨s.patients.set i p, s.appointments⟩
  | .updateAppointment i a => ⟨s.patients, s.appointments.set i a⟩

def runBookingFormActions (acts : List BookingFormAction) : BookingFormState :=
  acts.foldl applyBookingFormAction initialBookingFormState

/-- `isTimeSlotTaken` (`BookingForm.tsx` lines 94-100): scans the form's own
`appointments` entries (the drafts of the current booking session), looking
for another index with the same date and time.  It receives no collection of
stored appointments. -/
def isTimeSlotTaken (appointments : List AppointmentDetails)
    (date time : String) (currentIndex : Nat) : Bool :=
  appointments.enum.any fun p =>
    p.1 != currentIndex && p.2.date == date && p.2.time == time

/-- Outcome of the validation gate at the top of the booking form's
`handleSubmit` (lines 156-175), before any record is created. -/
inductive SubmitOutcome where
  | rejectedBlockedDate
  | rejectedSameSlot
  | proceedsToCreate
deriving DecidableEq, Repr

/-- The two rejection checks of `handleSubmit`: first the blocked-date scan
(alert and return), then the duplicate-slot scan (alert with the same-slot
conflict message and return); otherwise the creation loop runs. -/
def handleSubmitGate (blockedDates : List String)
    (appointments : List AppointmentDetails) : SubmitOutcome :=
  if appointments.any (fun apt => isDateBlocked blockedDates apt.date) then
    .rejectedBlockedDate
  else if appointments.enum.any
      (fun p => isTimeSlotTaken appointments p.2.date p.2.time p.1) then
    .rejectedSameSlot
  else .proceedsToCreate

/-! ## Emergency reschedule (`firestore.addEmergencyReschedule`,
`CalendarPage.handleEmergencyReschedule`) -/

/-- The blocked-date list generated by `addEmergencyReschedule`
(`firestore.ts` lines 177-187): every calendar day from the start to the
end of the range, inclusive, rendered as an ISO date string
(`d.toISOString().split("T")[0]`); the loop body does not run when the end
precedes the start. -/
def addEmergencyRescheduleBlockedDates (start finish : Ymd) : List String :=
  (List.range (natDays finish.year finish.month finish.day + 1
      - natDays start.year start.month start.day)).map
    (fun k => isoOfDay (natDays start.year start.month start.day + k))

/-- JavaScript `String.prototype.trim`: strip leading and trailing
whitespace (an executable model; `String.trim` of the Lean library is
implemented with well-founded recursion and does not reduce). -/
def jsTrim (s : String) : String :=
  ⟨((s.data.dropWhile Char.isWhitespace).reverse.dropWhile
      Char.isWhitespace).reverse⟩

/-- Net effect of `handleEmergencyReschedule`'s update loop
(`CalendarPage`, lines 555-570 of the concatenated staff sources) on the
appointment collection: every appointment whose id is among the selected
affected appointments and whose status is not `completed` gets status
`rescheduled` and its notes field set to the string
`"Emergency rescheduled: "` followed by the trimmed operator message. -/
def applyEmergencyReschedule (appointments : List Appointment)
    (affected : List String) (message : String) : List Appointment :=
  appointments.map fun apt =>
    if affected.contains apt.id ∧ apt.status ≠ .completed then
      { apt with
          status := .rescheduled
          notes := "Emergency rescheduled: " ++ jsTrim message }
    else apt

/-! ## Recurring appointment fan-out (`AddAppointmentModal.handleSubmit`,
`CalendarPage.handleAddAppointment`) -/

inductive RecurringPattern where
  | weekly
  | biWeekly
  | monthly
deriving DecidableEq, Repr

/-- The staff add-appointment modal's form state
(`AddAppointmentModal.tsx` lines 18-29); the date input is an ISO date
string, carried here as its parsed civil date. -/
structure ModalFormData where
  patientId : String
  patientName : String
  procedureType : String
  date : Ymd
  time : String
  price : Nat
  notes : String
  isRecurring : Bool
  recurringPattern : RecurringPattern
  occurrences : Nat
deriving DecidableEq, Repr

/-- The fan-out date computation shared by the modal's `handleSubmit`
(lines 82-95) and the dead recurring branch of `handleAddAppointment`
(lines 442-455): occurrence `i` is the start date with
`setDate(start.getDate() + i*7)` (weekly), `+ i*14` (bi-weekly) or
`setMonth(start.getMonth() + i)` (monthly). -/
def recurringDates (pattern : RecurringPattern) (occurrences : Nat)
    (start : Nat) : List Nat :=
  (List.range occurrences).map fun i =>
    match pattern with
    | .weekly => jsSetDate start ((civilOf start).day + i * 7)
    | .biWeekly => jsSetDate start ((civilOf start).day + i * 14)
    | .monthly => jsSetMonth start ((civilOf start).month - 1 + i)

/-- One per-occurrence object pushed by the modal: `{...formData, date}`. -/
structure SubmittedAppointment where
  form : ModalFormData
  date : String
deriving DecidableEq, Repr

/-- The JavaScript value the modal passes to `onSubmit`: a single
appointment object, or — for a recurring submission — an Array of
per-occurrence objects. -/
inductive SubmittedValue where
  | single (a : SubmittedAppointment)
  | multiple (l : List SubmittedAppointment)
deriving DecidableEq, Repr

/-- `AddAppointmentModal.handleSubmit` (lines 63-109): reject a blocked
date; otherwise either fan the recurring form out into an array of dated
objects (formatted with the local-date `formatDate`), or submit a single
object. -/
def modalHandleSubmit (blockedDates : List String)
    (fd : ModalFormData) : Option SubmittedValue :=
  if isDateBlocked blockedDates (isoOfYmd fd.date) then none
  else if fd.isRecurring then
    some (.multiple ((recurringDates fd.recurringPattern fd.occurrences
        (natDays fd.date.year fd.date.month fd.date.day)).map
      (fun z => ⟨fd, isoOfDay z⟩)))
  else
    some (.single ⟨fd, isoOfDay (natDays fd.date.year fd.date.month fd.date.day)⟩)

/-- `firestore.addAppointment`'s handling of the submitted object's date
field (`firestore.ts` lines 50-61): `appointment.date.split("T")[0]`
succeeds on a string and throws a `TypeError` when the field is absent
(`undefined`). -/
def addAppointmentStore (date : Option String) : Except String String :=
  match date with
  | none => .error "TypeError: undefined date"
  | some d => .ok ((d.splitOn "T").headD d)

/-- JavaScript `new Date(s)` on an ISO `YYYY-MM-DD` string, as a day
count (non-ISO inputs are junk and are mapped to day 0; the application
only parses ISO strings here). -/
def parseIsoDay (s : String) : Nat :=
  match (s.splitOn "-").map String.toNat? with
  | [some y, some m, some d] => natDays y m d
  | _ => 0

/-- `CalendarPage.handleAddAppointment` (lines 436-481).  The guard reads
`appointmentData.isRecurring`; a JavaScript Array has no `isRecurring`
property, so for the modal's recurring submissions (an Array) the guard is
falsy and the non-recurring branch runs, where `{...appointmentData}`
spreads only the array's index keys — the object stored has no `date`
field, `addAppointment` throws on `date.split`, the catch block alerts,
and no record is created.  The recurring branch (reachable only for a
single object with `isRecurring` set) re-runs the fan-out and stores one
record per occurrence. -/
def handleAddAppointment (v : SubmittedValue) : Except String (List String) :=
  match v with
  | .single a =>
      if a.form.isRecurring then
        .ok ((recurringDates a.form.recurringPattern a.form.occurrences
            (parseIsoDay a.date)).map isoOfDay)
      else
        (addAppointmentStore (some a.date)).map (fun d => [d])
  | .multiple _ =>
      (addAppointmentStore none).map (fun d => [d])

/-- The composed flow: submitting the staff add-appointment modal into the
calendar page's handler.  The result is `none` when the modal refuses to
submit (blocked date), otherwise the outcome of `handleAddAppointment`:
the list of stored record dates, or an error with no record created. -/
def composedAddAppointment (blockedDates : List String)
    (fd : ModalFormData) : Option (Except String (List String)) :=
  (modalHandleSubmit blockedDates fd).map handleAddAppointment

/-! ## Calendar grid (`CalendarPage.generateCalendarDays`) -/

/-- One cell of the month grid; the source stores the ISO string of the
cell's day, modelled here by the day count, together with the displayed
day-of-month and the current-month flag. -/
structure CalendarDay where
  date : Nat
  dayOfMonth : Nat
  isCurrentMonth : Bool
deriving DecidableEq, Repr

/-- `generateCalendarDays` (lines 357-402 of the concatenated staff
sources), for the month with JavaScript year `y` and 0-based month index
`m`: trailing days of the previous month down from `firstDay.getDay()`
(the loop runs `i = firstDayOfWeek - 1` down to `0`, pushing
`new Date(year, month, -i)`), then the current month's
`lastDay.getDate()` days, then leading days of the next month padding the
grid to 42 cells (the source computes the pad count as
`42 - days.length` with `days.length = firstDayOfWeek + lastDay.getDate()`,
written out explicitly here). -/
def generateCalendarDays (y m : Nat) : List CalendarDay :=
  ((List.range (weekday (jsMonthStart y m))).reverse.map (fun i =>
    { date := jsMonthStart y m - 1 - i,
      dayOfMonth := (civilOf (jsMonthStart y m - 1 - i)).day,
      isCurrentMonth := false }))
    ++ ((List.range ((civilOf (jsMonthStart y (m + 1) - 1)).day)).map (fun k =>
      { date := jsMonthStart y m + k, dayOfMonth := k + 1,
        isCurrentMonth := true }))
    ++ ((List.range (42 - (weekday (jsMonthStart y m)
          + (civilOf (jsMonthStart y (m + 1) - 1)).day))).map (fun k =>
      { date := jsMonthStart y (m + 1) + k,
        dayOfMonth := (civilOf (jsMonthStart y (m + 1) + k)).day,
        isCurrentMonth := false }))

/-! Verification of the calendar conversion algorithms. -/

theorem yoeOfDoe_e1 (yoe doy doe : Nat) (h1 : yoe ≤ 399) (h2 : doy ≤ 365)
    (hdoe : doe = yoe * 365 + yoe / 4 - yoe / 100 + doy) :
    ∃ e1, doe / 1460 = yoe / 4 + e1 ∧ e1 ≤ 1
      ∧ (e1 = 1 → 266 ≤ doy)
      ∧ (doy = 365 → yoe % 4 = 3 → e1 = 1) := by
  refine ⟨(365 * (yoe % 4) + yoe / 4 - yoe / 100 + doy) / 1460, ?_, ?_, ?_, ?_⟩
  · omega
  · omega
  · omega
  · omega

theorem yoeOfDoe_e2 (yoe doy doe : Nat) (h1 : yoe ≤ 399) (h2 : doy ≤ 365)
    (hdoe : doe = yoe * 365 + yoe / 4 - yoe / 100 + doy) :
    ∃ e2, doe / 36524 = yoe / 100 + e2 ∧ e2 ≤ 1
      ∧ (e2 = 1 → yoe % 100 = 99 ∧ doy = 365) := by
  have h4 : yoe / 4 = 25 * (yoe / 100) + (yoe % 100) / 4 := by omega
  refine ⟨(365 * (yoe % 100) + (yoe % 100) / 4 + doy) / 36524, ?_, ?_, ?_⟩
  · omega
  · omega
  · omega

theorem yoeOfDoe_e3 (yoe doy doe : Nat) (h1 : yoe ≤ 399) (h2 : doy ≤ 365)
    (hdoe : doe = yoe * 365 + yoe / 4 - yoe / 100 + doy) :
    doe / 146096 ≤ 1
      ∧ (doe / 146096 = 1 → doy = 365 ∧ yoe = 399)
      ∧ (yoe = 399 → doy = 365 → doe / 146096 = 1) := by
  refine ⟨?_, ?_, ?_⟩
  · omega
  · omega
  · omega

theorem yoeOfDoe_final (yoe doy doe A B e1 e2 e3 : Nat)
    (hBA : B ≤ A) (hA99 : A ≤ 99) (h2 : doy ≤ 365)
    (hdoe : doe = yoe * 365 + A - B + doy)
    (he1 : e1 ≤ 1) (he2 : e2 ≤ 1) (he3 : e3 ≤ 1)
    (hlo1 : e1 = 1 → 266 ≤ doy)
    (hc2 : e2 = 1 → doy = 365)
    (hc3 : e3 = 1 → doy = 365)
    (h365 : doy = 365 → e1 = 1 ∧ (e2 = 1 → e3 = 1)) :
    (doe - (A + e1) + (B + e2) - e3) / 365 = yoe := by
  omega

/-- Exactness of the year-of-era extraction: on a day-of-era lying in
year-of-era `yoe` at day-of-shifted-year `doy`, `yoeOfDoe` recovers `yoe`.
The hypothesis `h3` says that `doy = 365` can only happen when the shifted
year ends with a leap day. -/
theorem yoeOfDoe_exact (yoe doy doe : Nat) (h1 : yoe ≤ 399) (h2 : doy ≤ 365)
    (h3 : doy = 365 → yoe % 4 = 3 ∧ (yoe % 100 ≠ 99 ∨ yoe = 399))
    (hdoe : doe = yoe * 365 + yoe / 4 - yoe / 100 + doy) :
    yoeOfDoe doe = yoe := by
  have hBA : yoe / 100 ≤ yoe / 4 := by omega
  have hA99 : yoe / 4 ≤ 99 := by omega
  obtain ⟨e1, hq1, he1, he1lo, he1hi⟩ := yoeOfDoe_e1 yoe doy doe h1 h2 hdoe
  obtain ⟨e2, hq2, he2, he2c⟩ := yoeOfDoe_e2 yoe doy doe h1 h2 hdoe
  obtain ⟨he3, he3c, he3f⟩ := yoeOfDoe_e3 yoe doy doe h1 h2 hdoe
  unfold yoeOfDoe
  rw [hq1, hq2]
  exact yoeOfDoe_final yoe doy doe (yoe / 4) (yoe / 100) e1 e2 (doe / 146096)
    hBA hA99 h2 hdoe he1 he2 he3 he1lo
    (fun h => (he2c h).2) (fun h => (he3c h).1)
    (fun hd => ⟨he1hi hd (h3 hd).1,
      fun h2' => he3f
        (match (h3 hd).2 with
          | Or.inl hne => absurd (he2c h2').1 hne
          | Or.inr h399 => h399) hd⟩)

theorem monthLength_le31 (y m : Nat) : monthLength y m ≤ 31 := by
  unfold monthLength
  split_ifs <;> omega

theorem monthLength_feb (y : Nat) : monthLength y 2 ≤ 29 := by
  unfold monthLength
  norm_num
  split_ifs <;> omega

theorem monthLength_ge28 (y m : Nat) : 28 ≤ monthLength y m := by
  unfold monthLength
  split_ifs <;> omega

theorem monthLength_30 (y m : Nat) (h : m = 4 ∨ m = 6 ∨ m = 9 ∨ m = 11) :
    monthLength y m = 30 := by
  unfold monthLength
  rcases h with h | h | h | h <;> subst h <;> norm_num

/-- Bound on the day-of-shifted-year of a valid civil date. -/
theorem doy_le (y m d : Nat) (hm1 : 1 ≤ m) (hm2 : m ≤ 12) (hd1 : 1 ≤ d)
    (hd2 : d ≤ monthLength y m) : monthDoy m + (d - 1) ≤ 365 := by
  have h31 := monthLength_le31 y m
  have hf := monthLength_feb y
  interval_cases m <;> norm_num [monthDoy] <;> omega

/-- Day-of-shifted-year 365 is only reached by February 29 of a leap year. -/
theorem doy365 (y m d : Nat) (hm1 : 1 ≤ m) (hm2 : m ≤ 12) (hd1 : 1 ≤ d)
    (hd2 : d ≤ monthLength y m) (h : monthDoy m + (d - 1) = 365) :
    m = 2 ∧ leapYear y = true := by
  have h31 := monthLength_le31 y m
  interval_cases m <;> norm_num [monthDoy] at h <;>
    first
      | exact absurd h (by omega)
      | (refine ⟨rfl, ?_⟩
         by_cases hl : leapYear y = true
         · exact hl
         · exfalso
           have hl' : leapYear y = false := by
             revert hl
             cases leapYear y <;> simp
           simp only [monthLength, hl'] at hd2
           norm_num at hd2
           omega)

/-- Translation of the civil leap-year condition of year `y` into conditions
on the year-of-era of the shifted year `y - 1`. -/
theorem leap_to_yoe (y : Nat) (hy : 1 ≤ y) (hl : leapYear y = true) :
    (y - 1) % 400 % 4 = 3 ∧ ((y - 1) % 400 % 100 ≠ 99 ∨ (y - 1) % 400 = 399) := by
  have hp : (y % 4 = 0 ∧ y % 100 ≠ 0) ∨ y % 400 = 0 := by
    simpa [leapYear, Bool.or_eq_true, Bool.and_eq_true, beq_iff_eq,
      bne_iff_ne] using hl
  omega

/-- Recovery of the month and day from the day-of-shifted-year. -/
theorem mp_recover (y m d : Nat) (hm1 : 1 ≤ m) (hm2 : m ≤ 12) (hd1 : 1 ≤ d)
    (hd2 : d ≤ monthLength y m) :
    mpOfDoy (monthDoy m + (d - 1)) = (if 3 ≤ m then m - 3 else m + 9)
      ∧ monthDoy m + (d - 1)
          - (153 * (if 3 ≤ m then m - 3 else m + 9) + 2) / 5 + 1 = d := by
  have h31 := monthLength_le31 y m
  have hf := monthLength_feb y
  have h4 := monthLength_30 y 4 (by norm_num)
  have h6 := monthLength_30 y 6 (by norm_num)
  have h9 := monthLength_30 y 9 (by norm_num)
  have h11 := monthLength_30 y 11 (by norm_num)
  interval_cases m <;> norm_num [monthDoy, mpOfDoy] <;> omega

/-- Core of the round trip: `civilOf` decomposes a day count built from an
era, year-of-era and day-of-shifted-year back into its components. -/
theorem civilOf_core (era yoe doy doe z : Nat)
    (h1 : yoe ≤ 399) (h2 : doy ≤ 365)
    (h3 : doy = 365 → yoe % 4 = 3 ∧ (yoe % 100 ≠ 99 ∨ yoe = 399))
    (hdoe : doe = yoe * 365 + yoe / 4 - yoe / 100 + doy)
    (hz : z = era * 146097 + doe) :
    civilOf z =
      ⟨if (if mpOfDoy doy < 10 then mpOfDoy doy + 3 else mpOfDoy doy - 9) ≤ 2
          then yoe + era * 400 + 1 else yoe + era * 400,
       if mpOfDoy doy < 10 then mpOfDoy doy + 3 else mpOfDoy doy - 9,
       doy - (153 * mpOfDoy doy + 2) / 5 + 1⟩ := by
  have hdb : doe ≤ 146096 := by omega
  have hera : z / 146097 = era := by omega
  have hdoeq : z % 146097 = doe := by omega
  have hyoe : yoeOfDoe doe = yoe := yoeOfDoe_exact yoe doy doe h1 h2 h3 hdoe
  have hdoy : doyOfDoe doe = doy := by
    unfold doyOfDoe
    rw [hyoe]
    omega
  simp only [civilOf, hdoeq, hera, hyoe, hdoy]

/-- The civil-from-days conversion is a left inverse of days-from-civil on
valid civil dates with positive year. -/
theorem civilOf_natDays (y m d : Nat) (hy : 1 ≤ y) (hm1 : 1 ≤ m)
    (hm2 : m ≤ 12) (hd1 : 1 ≤ d) (hd2 : d ≤ monthLength y m) :
    civilOf (natDays y m d) = ⟨y, m, d⟩ := by
  have hz : natDays y m d
      = (shiftedYear y m / 400) * 146097
        + ((shiftedYear y m % 400) * 365 + (shiftedYear y m % 400) / 4
            - (shiftedYear y m % 400) / 100 + (monthDoy m + (d - 1))) := by
    unfold natDays
    omega
  have h365 := doy_le y m d hm1 hm2 hd1 hd2
  have h3 : monthDoy m + (d - 1) = 365 →
      (shiftedYear y m % 400) % 4 = 3
        ∧ ((shiftedYear y m % 400) % 100 ≠ 99 ∨ shiftedYear y m % 400 = 399) := by
    intro h
    obtain ⟨hm2eq, hleap⟩ := doy365 y m d hm1 hm2 hd1 hd2 h
    have hsy : shiftedYear y m = y - 1 := by
      unfold shiftedYear
      rw [hm2eq]
      norm_num
    rw [hsy]
    exact leap_to_yoe y hy hleap
  have hcore := civilOf_core (shiftedYear y m / 400) (shiftedYear y m % 400)
    (monthDoy m + (d - 1))
    ((shiftedYear y m % 400) * 365 + (shiftedYear y m % 400) / 4
      - (shiftedYear y m % 400) / 100 + (monthDoy m + (d - 1)))
    (natDays y m d) (by omega) h365 h3 rfl hz
  rw [hcore]
  obtain ⟨hmp, hdrec⟩ := mp_recover y m d hm1 hm2 hd1 hd2
  rw [hmp]
  by_cases h3m : 3 ≤ m
  · have hsy : shiftedYear y m = y := by
      unfold shiftedYear
      rw [if_neg (by omega)]
    rw [if_pos h3m] at hdrec ⊢
    rw [if_pos (by omega : m - 3 < 10), hsy]
    have hmm : m - 3 + 3 = m := by omega
    rw [hmm, if_neg (by omega : ¬ m ≤ 2)]
    exact congrArg₂ (Ymd.mk · m ·) (by omega) hdrec
  · have hsy : shiftedYear y m = y - 1 := by
      unfold shiftedYear
      rw [if_pos (by omega)]
    rw [if_neg h3m] at hdrec ⊢
    rw [if_neg (by omega : ¬ m + 9 < 10), hsy]
    have hmm : m + 9 - 9 = m := by omega
    rw [hmm, if_pos (by omega : m ≤ 2)]
    exact congrArg₂ (Ymd.mk · m ·) (by omega) hdrec

theorem natDays_linear_day (y m d : Nat) :
    natDays y m d = natDays y m 1 + (d - 1) := by
  unfold natDays
  omega

theorem gId (t : Nat) :
    (t / 400) * 146097 + (t % 400) * 365 + (t % 400) / 4 - (t % 400) / 100
      = 365 * t + t / 4 - t / 100 + t / 400 := by
  omega

theorem leapYear_iff (y : Nat) :
    leapYear y = true ↔ ((y % 4 = 0 ∧ y % 100 ≠ 0) ∨ y % 400 = 0) := by
  simp [leapYear, Bool.or_eq_true, Bool.and_eq_true, beq_iff_eq, bne_iff_ne]

theorem monthDoy_step (y m : Nat) (h3 : 3 ≤ m) (h11 : m ≤ 11) :
    monthDoy (m + 1) = monthDoy m + monthLength y m := by
  interval_cases m <;> norm_num [monthDoy, monthLength]

/-- Month starts are spaced by the month lengths. -/
theorem natDays_succMonth (y m : Nat) (hy : 1 ≤ y) (hm1 : 1 ≤ m)
    (hm2 : m ≤ 11) :
    natDays y (m + 1) 1 = natDays y m 1 + monthLength y m := by
  rcases eq_or_ne m 1 with h1 | h1
  · subst h1
    have e2 : natDays y 2 1
        = ((y - 1) / 400) * 146097 + ((y - 1) % 400) * 365
          + ((y - 1) % 400) / 4 - ((y - 1) % 400) / 100 + 337 := by
      unfold natDays shiftedYear monthDoy
      norm_num
    have e1 : natDays y 1 1
        = ((y - 1) / 400) * 146097 + ((y - 1) % 400) * 365
          + ((y - 1) % 400) / 4 - ((y - 1) % 400) / 100 + 306 := by
      unfold natDays shiftedYear monthDoy
      norm_num
    have hml : monthLength y 1 = 31 := by norm_num [monthLength]
    show natDays y 2 1 = natDays y 1 1 + monthLength y 1
    omega
  rcases eq_or_ne m 2 with h2 | h2
  · subst h2
    have e3 : natDays y 3 1
        = (y / 400) * 146097 + (y % 400) * 365
          + (y % 400) / 4 - (y % 400) / 100 := by
      unfold natDays shiftedYear monthDoy
      norm_num
    have e2 : natDays y 2 1
        = ((y - 1) / 400) * 146097 + ((y - 1) % 400) * 365
          + ((y - 1) % 400) / 4 - ((y - 1) % 400) / 100 + 337 := by
      unfold natDays shiftedYear monthDoy
      norm_num
    have hg1 := gId y
    have hg2 := gId (y - 1)
    have hml : monthLength y 2 = if leapYear y = true then 29 else 28 := by
      norm_num [monthLength]
    show natDays y 3 1 = natDays y 2 1 + monthLength y 2
    rcases em (leapYear y = true) with hl | hl
    · have hcond := (leapYear_iff y).mp hl
      rw [e3, e2, hml, if_pos hl]
      omega
    · have hcond : ¬ ((y % 4 = 0 ∧ y % 100 ≠ 0) ∨ y % 400 = 0) :=
        fun h => hl ((leapYear_iff y).mpr h)
      rw [e3, e2, hml, if_neg hl]
      omega
  · have h3 : 3 ≤ m := by omega
    have hsy1 : shiftedYear y (m + 1) = y := by
      unfold shiftedYear
      rw [if_neg (by omega)]
    have hsy2 : shiftedYear y m = y := by
      unfold shiftedYear
      rw [if_neg (by omega)]
    have hstep := monthDoy_step y m h3 hm2
    unfold natDays
    rw [hsy1, hsy2, hstep]
    omega

/-- December to January of the next year. -/
theorem natDays_decJan (y : Nat) :
    natDays (y + 1) 1 1 = natDays y 12 1 + 31 := by
  have e1 : natDays (y + 1) 1 1
      = (y / 400) * 146097 + (y % 400) * 365
        + (y % 400) / 4 - (y % 400) / 100 + 306 := by
    unfold natDays shiftedYear monthDoy
    norm_num
  have e12 : natDays y 12 1
      = (y / 400) * 146097 + (y % 400) * 365
        + (y % 400) / 4 - (y % 400) / 100 + 275 := by
    unfold natDays shiftedYear monthDoy
    norm_num
  omega

/-- Every month start with positive year lies at day number at least 306. -/
theorem natDays_ge (y m : Nat) (hy : 1 ≤ y) (hm1 : 1 ≤ m) (hm2 : m ≤ 12) :
    306 ≤ natDays y m 1 := by
  unfold natDays
  rcases le_or_lt m 2 with h | h
  · have : 306 ≤ monthDoy m := by
      interval_cases m <;> norm_num [monthDoy]
    omega
  · have hsy : shiftedYear y m = y := by
      unfold shiftedYear
      rw [if_neg (by omega)]
    rw [hsy]
    have : 0 ≤ monthDoy m := Nat.zero_le _
    have hy400 : 1 ≤ y / 400 ∨ (y / 400 = 0 ∧ y % 400 = y) := by omega
    rcases hy400 with h' | ⟨h1', h2'⟩
    · omega
    · rw [h1', h2']
      omega

/-! ## Reports aggregation: claims C3 and C9 -/

theorem foldl_add_eq_sum {α : Type} (f : α → Nat) (l : List α) (n : Nat) :
    l.foldl (fun t a => t + f a) n = n + (l.map f).sum := by
  induction l generalizing n with
  | nil => simp
  | cons x xs ih =>
      simp only [List.foldl_cons, List.map_cons, List.sum_cons, ih]
      omega

theorem jsOrOptNat_one (o : Option Nat) :
    jsOrOptNat o 1 = max (o.getD 0) 1 := by
  cases o with
  | none => rfl
  | some n =>
      simp only [jsOrOptNat, Option.getD_some]
      rcases Nat.eq_zero_or_pos n with h | h
      · subst h
        simp
      · rw [if_neg (by omega), Nat.max_eq_left h]

/-- Claim C3: for every loaded appointment list and every active date-range
filter, the reported total revenue equals the sum, over the appointments
that pass the date filter and have status `completed`, of the appointment's
price (its `procedurePrice` falling back to `price` falling back to 0)
times `max(occurrences, 1)`. -/
theorem calculateRevenue_spec (startDate endDate : String)
    (appointments : List Appointment) :
    totalRevenue startDate endDate appointments
      = ((appointments.filter (fun apt =>
            isWithinRange startDate endDate apt.date
              && apt.status == .completed)).map
          (fun apt => jsOrNat (jsOrNat apt.procedurePrice apt.price) 0
            * max (apt.occurrences.getD 0) 1)).sum := by
  unfold totalRevenue calculateRevenue
  rw [foldl_add_eq_sum, List.filter_filter, Nat.zero_add]
  have hfil : appointments.filter
        (fun a => a.status == AppointmentStatus.completed
          && isWithinRange startDate endDate a.date)
      = appointments.filter
        (fun a => isWithinRange startDate endDate a.date
          && a.status == AppointmentStatus.completed) :=
    List.filter_congr (fun a _ => Bool.and_comm _ _)
  rw [hfil]
  refine congrArg List.sum (List.map_congr_left ?_)
  intro a _
  unfold revenueAmount
  rw [jsOrOptNat_one]

/-- Claim C9, counterexample: a completed, non-recurring appointment with
`occurrences = 3` contributes `price * 3` to the reports revenue but
`getAppointmentTotalPrice` returns just `price`, so the two per-appointment
amounts differ. -/
theorem revenueAmount_ne_totalPrice :
    revenueAmount
        { id := "a2", patientId := "p2", patientName := "Maria Cruz",
          procedureType := "Cleaning", procedurePrice := 2500, price := 2500,
          date := "2025-03-10", time := "10:00 AM", notes := "",
          status := .completed, isRecurring := some false,
          occurrences := some 3 } = 7500
      ∧ getAppointmentTotalPrice
        { id := "a2", patientId := "p2", patientName := "Maria Cruz",
          procedureType := "Cleaning", procedurePrice := 2500, price := 2500,
          date := "2025-03-10", time := "10:00 AM", notes := "",
          status := .completed, isRecurring := some false,
          occurrences := some 3 } = 2500 := by
  exact ⟨rfl, rfl⟩

/-- Claim C9, amended: the reports aggregator's per-appointment amount
agrees with `getAppointmentTotalPrice` when the effective price
(`procedurePrice || price || 0`) equals `price` and, additionally, either
the appointment is recurring or its occurrence count is at most 1.  In
general the aggregator multiplies by `occurrences` even for non-recurring
appointments and uses `procedurePrice` first, so the two differ. -/
theorem revenueAmount_eq_totalPrice (apt : Appointment)
    (hp : jsOrNat (jsOrNat apt.procedurePrice apt.price) 0 = apt.price)
    (ho : apt.isRecurring = some true ∨ apt.occurrences.getD 0 ≤ 1) :
    revenueAmount apt = getAppointmentTotalPrice apt := by
  unfold revenueAmount getAppointmentTotalPrice
  rw [hp]
  cases hocc : apt.occurrences with
  | none => simp [jsOrOptNat]
  | some n =>
      simp only [jsOrOptNat]
      by_cases h0 : n = 0
      · subst h0
        simp
      · rw [if_neg h0]
        by_cases h1 : 1 < n
        · rcases ho with hr | hle
          · rw [if_pos ⟨hr, h0, h1⟩]
          · rw [hocc] at hle
            simp only [Option.getD_some] at hle
            omega
        · have hn1 : n = 1 := by omega
          subst hn1
          rw [if_neg (by simp)]
          exact Nat.mul_one _

theorem revenueAmount_eq_totalPrice_witness :
    jsOrNat (jsOrNat 3500 3500) 0
        = ({ id := "a3", patientId := "p3", patientName := "Ana Reyes",
             procedureType := "Filling", procedurePrice := 3500, price := 3500,
             date := "2025-04-02", time := "1:00 PM", notes := "",
             status := .completed, isRecurring := some true,
             occurrences := some 4 } : Appointment).price
      ∧ revenueAmount
          { id := "a3", patientId := "p3", patientName := "Ana Reyes",
            procedureType := "Filling", procedurePrice := 3500, price := 3500,
            date := "2025-04-02", time := "1:00 PM", notes := "",
            status := .completed, isRecurring := some true,
            occurrences := some 4 }
        = getAppointmentTotalPrice
          { id := "a3", patientId := "p3", patientName := "Ana Reyes",
            procedureType := "Filling", procedurePrice := 3500, price := 3500,
            date := "2025-04-02", time := "1:00 PM", notes := "",
            status := .completed, isRecurring := some true,
            occurrences := some 4 } :=
  ⟨rfl, revenueAmount_eq_totalPrice _ rfl (Or.inl rfl)⟩

/-! ## Phone validation: claim C6 -/

/-- Claim C6: the phone validator accepts a string exactly when removing
every non-digit character leaves exactly 11 digits whose first two are
`0` and `9`. -/
theorem isValidPhoneNumber_spec (phone : String) :
    isValidPhoneNumber phone = true
      ↔ ((phone.data.filter Char.isDigit).length = 11
          ∧ (phone.data.filter Char.isDigit).take 2 = ['0', '9']) := by
  unfold isValidPhoneNumber
  have hall : ∀ c ∈ phone.data.filter Char.isDigit, Char.isDigit c = true :=
    fun c hc => (List.mem_filter.mp hc).2
  rcases hl : phone.data.filter Char.isDigit with _ | ⟨c0, _ | ⟨c1, rest⟩⟩
  · simp [matches09]
  · simp [matches09]
  · rw [hl] at hall
    simp only [matches09, Bool.and_eq_true, beq_iff_eq, List.all_eq_true,
      List.length_cons]
    constructor
    · rintro ⟨⟨⟨h0, h9⟩, hlen⟩, _⟩
      subst h0
      subst h9
      exact ⟨by omega, rfl⟩
    · rintro ⟨hlen, htake⟩
      have htake2 : [c0, c1] = ['0', '9'] := htake
      injection htake2 with h0 htake'
      injection htake' with h9 _
      subst h0
      subst h9
      refine ⟨⟨⟨rfl, rfl⟩, by omega⟩, ?_⟩
      intro c hc
      exact hall c (by simp [hc])

/-! ## Blocked dates: claims C5 and C7 -/

theorem mem_foldl_collect (docs : List (Option (List String)))
    (acc : List String) (d : String)
    (h : d ∈ acc ∨ ∃ b, some b ∈ docs ∧ d ∈ b) :
    d ∈ docs.foldl
      (fun allDates doc =>
        match doc with
        | some dates => allDates ++ dates
        | none => allDates) acc := by
  induction docs generalizing acc with
  | nil =>
      rcases h with h | ⟨b, hb, _⟩
      · simpa using h
      · simp at hb
  | cons doc docs ih =>
      simp only [List.foldl_cons]
      apply ih
      rcases h with h | ⟨b, hb, hd⟩
      · left
        cases doc <;> simp [h]
      · rcases List.mem_cons.mp hb with heq | hmem
        · left
          rw [← heq]
          simp [hd]
        · exact Or.inr ⟨b, hmem, hd⟩

/-- Claim C5: a date contained in any stored blocked-date batch appears in
the union returned by `getBlockedDates`, and `isDateBlocked` reports it as
blocked. -/
theorem getBlockedDates_mem (docs : List (Option (List String)))
    (batch : List String) (d : String)
    (hb : some batch ∈ docs) (hd : d ∈ batch) :
    d ∈ getBlockedDates (.ok docs)
      ∧ isDateBlocked (getBlockedDates (.ok docs)) d = true := by
  have hmem : d ∈ docs.foldl
      (fun allDates doc =>
        match doc with
        | some dates => allDates ++ dates
        | none => allDates) [] :=
    mem_foldl_collect docs [] d (Or.inr ⟨batch, hb, hd⟩)
  have h1 : d ∈ getBlockedDates (.ok docs) := by
    unfold getBlockedDates
    exact List.mem_dedup.mpr hmem
  refine ⟨h1, ?_⟩
  unfold isDateBlocked
  exact List.elem_eq_true_of_mem h1

theorem getBlockedDates_mem_witness :
    some ["2025-07-01"] ∈ [some ["2025-07-01"]]
      ∧ "2025-07-01" ∈ (["2025-07-01"] : List String)
      ∧ ("2025-07-01" ∈ getBlockedDates (.ok [some ["2025-07-01"]])
          ∧ isDateBlocked (getBlockedDates (.ok [some ["2025-07-01"]]))
              "2025-07-01" = true) :=
  ⟨by decide, by decide,
    getBlockedDates_mem [some ["2025-07-01"]] ["2025-07-01"] "2025-07-01"
      (by decide) (by decide)⟩

/-- Claim C7: a failed blocked-date load yields the empty union, the
availability check then reports every date as not blocked (the check fails
open), and the application shell's state after such a load is the empty
list. -/
theorem getBlockedDates_fails_open (e : String) (d : String) :
    getBlockedDates (.error e) = []
      ∧ isDateBlocked (getBlockedDates (.error e)) d = false
      ∧ appBlockedDatesAfterLoad (.error e) = [] :=
  ⟨rfl, rfl, rfl⟩

/-! ## Booking form roster invariant: claim C10 -/

theorem length_eraseIdx_ite {α : Type} (l : List α) (i : Nat) :
    (l.eraseIdx i).length = if i < l.length then l.length - 1 else l.length := by
  induction l generalizing i with
  | nil => simp [List.eraseIdx]
  | cons x xs ih =>
      cases i with
      | zero => simp [List.eraseIdx]
      | succ j =>
          simp only [List.eraseIdx, List.length_cons, ih]
          split_ifs <;> omega

theorem bookingFormStep_preserves (s : BookingFormState)
    (a : BookingFormAction)
    (h1 : s.patients.length = s.appointments.length)
    (h2 : 1 ≤ s.patients.length) :
    (applyBookingFormAction s a).patients.length
        = (applyBookingFormAction s a).appointments.length
      ∧ 1 ≤ (applyBookingFormAction s a).patients.length := by
  cases a with
  | addPatientForm =>
      simp only [applyBookingFormAction, List.length_append,
        List.length_singleton]
      omega
  | removePatientForm i =>
      simp only [applyBookingFormAction]
      split_ifs with hg
      · simp only [length_eraseIdx_ite]
        split_ifs <;> omega
      · exact ⟨h1, h2⟩
  | updatePatient i p =>
      simp only [applyBookingFormAction, List.length_set]
      exact ⟨h1, h2⟩
  | updateAppointment i a =>
      simp only [applyBookingFormAction, List.length_set]
      exact ⟨h1, h2⟩

/-- Claim C10: under every sequence of booking-form roster actions, the
patient list and the appointment-details list keep equal lengths, and both
stay non-empty, so every roster entry has exactly one corresponding
appointment entry at submission. -/
theorem bookingForm_lists_aligned (acts : List BookingFormAction) :
    (runBookingFormActions acts).patients.length
        = (runBookingFormActions acts).appointments.length
      ∧ 1 ≤ (runBookingFormActions acts).patients.length := by
  have main : ∀ (l : List BookingFormAction) (s : BookingFormState),
      s.patients.length = s.appointments.length → 1 ≤ s.patients.length →
      ((l.foldl applyBookingFormAction s).patients.length
          = (l.foldl applyBookingFormAction s).appointments.length
        ∧ 1 ≤ (l.foldl applyBookingFormAction s).patients.length) := by
    intro l
    induction l with
    | nil => exact fun s h1 h2 => ⟨h1, h2⟩
    | cons a rest ih =>
        intro s h1 h2
        obtain ⟨h1', h2'⟩ := bookingFormStep_preserves s a h1 h2
        exact ih _ h1' h2'
  exact main acts initialBookingFormState rfl (by decide)

/-! ## Booking availability check: claim C1 -/

theorem enumFrom_any_iff {α : Type} (p : Nat × α → Bool) (n : Nat)
    (l : List α) :
    (List.enumFrom n l).any p = true
      ↔ ∃ j, ∃ hj : j < l.length, p (n + j, l.get ⟨j, hj⟩) = true := by
  induction l generalizing n with
  | nil => simp
  | cons x xs ih =>
      simp only [List.enumFrom, List.any_cons, Bool.or_eq_true, ih]
      constructor
      · rintro (h | ⟨j, hj, h⟩)
        · exact ⟨0, by simp, by simpa using h⟩
        · refine ⟨j + 1, by simpa using Nat.succ_lt_succ hj, ?_⟩
          have harith : n + (j + 1) = n + 1 + j := by omega
          rw [harith]
          simpa using h
      · rintro ⟨j, hj, h⟩
        cases j with
        | zero =>
            left
            simpa using h
        | succ j' =>
            right
            refine ⟨j', by simpa using Nat.lt_of_succ_lt_succ hj, ?_⟩
            have harith : n + 1 + j' = n + (j' + 1) := by omega
            rw [harith]
            simpa using h

/-- Claim C1, counterexample: the loaded appointment collection holds a
non-cancelled (`scheduled`) appointment at date `2025-06-15`, time
`9:00 AM`, and the booking session drafts a single appointment at exactly
that slot; yet `isTimeSlotTaken` reports the slot as free and the
submission gate proceeds to create the records — the booking form never
consults the loaded collection. -/
theorem bookingConflict_counterexample :
    (([{ id := "a1", patientId := "p1", patientName := "Jane Doe",
         procedureType := "Cleaning", procedurePrice := 2500, price := 2500,
         date := "2025-06-15", time := "9:00 AM", notes := "",
         status := .scheduled, isRecurring := none,
         occurrences := none }] : List Appointment).any
        (fun a => a.status != .cancelled && a.date == "2025-06-15"
          && a.time == "9:00 AM")) = true
      ∧ isTimeSlotTaken [⟨"Cleaning", "2025-06-15", "9:00 AM", ""⟩]
          "2025-06-15" "9:00 AM" 0 = false
      ∧ handleSubmitGate [] [⟨"Cleaning", "2025-06-15", "9:00 AM", ""⟩]
          = .proceedsToCreate := by
  refine ⟨by decide, by decide, by decide⟩

/-- Claim C1, amended: the booking form's availability check consults only
the other appointment entries of the same booking session, not the loaded
appointment collection: assuming no drafted date is blocked,
`isTimeSlotTaken` reports a slot taken exactly when a different entry of
the session has the same date and time, and final submission is rejected
with the same-slot conflict message exactly when some entry's slot is
taken in this sense. -/
theorem isTimeSlotTaken_spec (blockedDates : List String)
    (drafts : List AppointmentDetails) (date time : String)
    (currentIndex : Nat)
    (hnb : drafts.all (fun a => !(isDateBlocked blockedDates a.date)) = true) :
    (isTimeSlotTaken drafts date time currentIndex = true
      ↔ ∃ j, j ≠ currentIndex ∧ ∃ hj : j < drafts.length,
          (drafts.get ⟨j, hj⟩).date = date ∧ (drafts.get ⟨j, hj⟩).time = time)
    ∧ (handleSubmitGate blockedDates drafts = .rejectedSameSlot
        ↔ drafts.enum.any
            (fun p => isTimeSlotTaken drafts p.2.date p.2.time p.1) = true) := by
  constructor
  · unfold isTimeSlotTaken List.enum
    rw [enumFrom_any_iff]
    constructor
    · rintro ⟨j, hj, h⟩
      simp only [Nat.zero_add, Bool.and_eq_true, bne_iff_ne, beq_iff_eq] at h
      exact ⟨j, h.1.1, hj, h.1.2, h.2⟩
    · rintro ⟨j, hne, hj, hd, ht⟩
      refine ⟨j, hj, ?_⟩
      simp only [Nat.zero_add, Bool.and_eq_true, bne_iff_ne, beq_iff_eq]
      exact ⟨⟨hne, hd⟩, ht⟩
  · have hany : drafts.any
        (fun apt => isDateBlocked blockedDates apt.date) = false := by
      cases h : drafts.any (fun apt => isDateBlocked blockedDates apt.date) with
      | false => rfl
      | true =>
          obtain ⟨a, ha, hpa⟩ := List.any_eq_true.mp h
          have := List.all_eq_true.mp hnb a ha
          simp [hpa] at this
    unfold handleSubmitGate
    rw [hany]
    simp only [Bool.false_eq_true, if_false]
    cases h2 : drafts.enum.any
        (fun p => isTimeSlotTaken drafts p.2.date p.2.time p.1) with
    | false => simp
    | true => simp

theorem isTimeSlotTaken_spec_witness :
    (([⟨"Cleaning", "2025-06-15", "9:00 AM", ""⟩,
       ⟨"Filling", "2025-06-15", "9:00 AM", ""⟩] :
        List AppointmentDetails).all
        (fun a => !(isDateBlocked [] a.date)) = true)
      ∧ ((isTimeSlotTaken
            [⟨"Cleaning", "2025-06-15", "9:00 AM", ""⟩,
             ⟨"Filling", "2025-06-15", "9:00 AM", ""⟩]
            "2025-06-15" "9:00 AM" 0 = true
          ↔ ∃ j, j ≠ 0 ∧ ∃ hj : j < (([⟨"Cleaning", "2025-06-15", "9:00 AM", ""⟩,
              ⟨"Filling", "2025-06-15", "9:00 AM", ""⟩] :
               List AppointmentDetails)).length,
              ((([⟨"Cleaning", "2025-06-15", "9:00 AM", ""⟩,
                  ⟨"Filling", "2025-06-15", "9:00 AM", ""⟩] :
                   List AppointmentDetails)).get ⟨j, hj⟩).date = "2025-06-15"
                ∧ ((([⟨"Cleaning", "2025-06-15", "9:00 AM", ""⟩,
                    ⟨"Filling", "2025-06-15", "9:00 AM", ""⟩] :
                     List AppointmentDetails)).get ⟨j, hj⟩).time = "9:00 AM")
        ∧ (handleSubmitGate []
              [⟨"Cleaning", "2025-06-15", "9:00 AM", ""⟩,
               ⟨"Filling", "2025-06-15", "9:00 AM", ""⟩] = .rejectedSameSlot
            ↔ (([⟨"Cleaning", "2025-06-15", "9:00 AM", ""⟩,
                 ⟨"Filling", "2025-06-15", "9:00 AM", ""⟩] :
                  List AppointmentDetails)).enum.any
                (fun p => isTimeSlotTaken
                  [⟨"Cleaning", "2025-06-15", "9:00 AM", ""⟩,
                   ⟨"Filling", "2025-06-15", "9:00 AM", ""⟩]
                  p.2.date p.2.time p.1) = true)) :=
  ⟨by decide,
    isTimeSlotTaken_spec []
      [⟨"Cleaning", "2025-06-15", "9:00 AM", ""⟩,
       ⟨"Filling", "2025-06-15", "9:00 AM", ""⟩]
      "2025-06-15" "9:00 AM" 0 (by decide)⟩

/-! ## Emergency reschedule: claim C2 -/

/-- Claim C2, counterexample: a selected, not-completed appointment whose
notes read `Bring previous xray` ends up, after the emergency reschedule,
with notes `Emergency rescheduled: Clinic flooded` — the operator message
is not appended to the existing notes (the result does not even extend
them; the old notes are discarded). -/
theorem emergencyReschedule_counterexample :
    applyEmergencyReschedule
        [{ id := "a9", patientId := "p9", patientName := "Lito Ramos",
           procedureType := "Crown", procedurePrice := 15000, price := 15000,
           date := "2025-07-02", time := "10:00 AM",
           notes := "Bring previous xray", status := .scheduled,
           isRecurring := none, occurrences := none }]
        ["a9"] "Clinic flooded"
      = [{ id := "a9", patientId := "p9", patientName := "Lito Ramos",
           procedureType := "Crown", procedurePrice := 15000, price := 15000,
           date := "2025-07-02", time := "10:00 AM",
           notes := "Emergency rescheduled: Clinic flooded",
           status := .rescheduled,
           isRecurring := none, occurrences := none }]
      ∧ ∀ s : String,
          "Emergency rescheduled: Clinic flooded"
            ≠ "Bring previous xray" ++ s := by
  constructor
  · decide
  · intro s h
    have hd := congrArg String.data h
    rw [String.data_append] at hd
    have hh := congrArg (fun l => l.headD 'x') hd
    simp at hh

/-- Claim C2, amended: an emergency reschedule over the inclusive range
2025-07-01..2025-07-03 blocks exactly the three days 2025-07-01,
2025-07-02 and 2025-07-03, and every selected affected appointment that is
not completed flips to status `rescheduled` with its notes replaced by
`"Emergency rescheduled: "` followed by the trimmed operator message (the
previous notes are discarded, not appended to). -/
theorem emergencyReschedule_spec (appointments : List Appointment)
    (affected : List String) (message : String) (apt : Appointment)
    (hmem : apt ∈ appointments)
    (hsel : affected.contains apt.id = true)
    (hnc : apt.status ≠ .completed) :
    addEmergencyRescheduleBlockedDates ⟨2025, 7, 1⟩ ⟨2025, 7, 3⟩
        = ["2025-07-01", "2025-07-02", "2025-07-03"]
      ∧ ({ apt with
            status := .rescheduled
            notes := "Emergency rescheduled: " ++ jsTrim message })
          ∈ applyEmergencyReschedule appointments affected message := by
  constructor
  · decide
  · unfold applyEmergencyReschedule
    refine List.mem_map.mpr ⟨apt, hmem, ?_⟩
    rw [if_pos ⟨hsel, hnc⟩]

theorem emergencyReschedule_spec_witness :
    ({ id := "b1", patientId := "p4", patientName := "Nina Cruz",
       procedureType := "Cleaning", procedurePrice := 2500, price := 2500,
       date := "2025-07-02", time := "11:00 AM", notes := "",
       status := .scheduled, isRecurring := none,
       occurrences := none } : Appointment)
        ∈ [({ id := "b1", patientId := "p4", patientName := "Nina Cruz",
              procedureType := "Cleaning", procedurePrice := 2500,
              price := 2500, date := "2025-07-02", time := "11:00 AM",
              notes := "", status := .scheduled, isRecurring := none,
              occurrences := none } : Appointment)]
      ∧ (["b1"] : List String).contains "b1" = true
      ∧ ({ id := "b1", patientId := "p4", patientName := "Nina Cruz",
           procedureType := "Cleaning", procedurePrice := 2500, price := 2500,
           date := "2025-07-02", time := "11:00 AM", notes := "",
           status := .scheduled, isRecurring := none,
           occurrences := none } : Appointment).status
          ≠ AppointmentStatus.completed
      ∧ (addEmergencyRescheduleBlockedDates ⟨2025, 7, 1⟩ ⟨2025, 7, 3⟩
            = ["2025-07-01", "2025-07-02", "2025-07-03"]
          ∧ ({ ({ id := "b1", patientId := "p4", patientName := "Nina Cruz",
                  procedureType := "Cleaning", procedurePrice := 2500,
                  price := 2500, date := "2025-07-02", time := "11:00 AM",
                  notes := "", status := .scheduled, isRecurring := none,
                  occurrences := none } : Appointment) with
                status := .rescheduled
                notes := "Emergency rescheduled: " ++ jsTrim "Flood" })
            ∈ applyEmergencyReschedule
                [{ id := "b1", patientId := "p4", patientName := "Nina Cruz",
                   procedureType := "Cleaning", procedurePrice := 2500,
                   price := 2500, date := "2025-07-02", time := "11:00 AM",
                   notes := "", status := .scheduled, isRecurring := none,
                   occurrences := none }]
                ["b1"] "Flood") :=
  ⟨by decide, by decide, by decide,
    emergencyReschedule_spec
      [{ id := "b1", patientId := "p4", patientName := "Nina Cruz",
         procedureType := "Cleaning", procedurePrice := 2500, price := 2500,
         date := "2025-07-02", time := "11:00 AM", notes := "",
         status := .scheduled, isRecurring := none, occurrences := none }]
      ["b1"] "Flood"
      { id := "b1", patientId := "p4", patientName := "Nina Cruz",
        procedureType := "Cleaning", procedurePrice := 2500, price := 2500,
        date := "2025-07-02", time := "11:00 AM", notes := "",
        status := .scheduled, isRecurring := none, occurrences := none }
      (by decide) (by decide) (by decide)⟩

/-! ## Recurring fan-out: claim C4 -/

/-- Claim C4, code evaluation at the failing input: submitting the staff
add-appointment modal with a recurring weekly appointment, occurrences 3,
start date 2025-01-06 (no blocked dates), makes the modal emit an Array of
three per-occurrence objects correctly dated 2025-01-06, 2025-01-13 and
2025-01-20 — but `handleAddAppointment` treats the Array as a single
non-recurring object with no `date` field, `addAppointment` throws, and
the composed flow produces an error with no appointment record created,
instead of the three records the claim (and the dead recurring branch of
the handler) intends. -/
theorem recurringSubmission_bug :
    modalHandleSubmit []
        { patientId := "p1", patientName := "John Smith",
          procedureType := "Cleaning", date := ⟨2025, 1, 6⟩,
          time := "9:00 AM", price := 2500, notes := "",
          isRecurring := true, recurringPattern := .weekly,
          occurrences := 3 }
      = some (.multiple
          [⟨{ patientId := "p1", patientName := "John Smith",
              procedureType := "Cleaning", date := ⟨2025, 1, 6⟩,
              time := "9:00 AM", price := 2500, notes := "",
              isRecurring := true, recurringPattern := .weekly,
              occurrences := 3 }, "2025-01-06"⟩,
           ⟨{ patientId := "p1", patientName := "John Smith",
              procedureType := "Cleaning", date := ⟨2025, 1, 6⟩,
              time := "9:00 AM", price := 2500, notes := "",
              isRecurring := true, recurringPattern := .weekly,
              occurrences := 3 }, "2025-01-13"⟩,
           ⟨{ patientId := "p1", patientName := "John Smith",
              procedureType := "Cleaning", date := ⟨2025, 1, 6⟩,
              time := "9:00 AM", price := 2500, notes := "",
              isRecurring := true, recurringPattern := .weekly,
              occurrences := 3 }, "2025-01-20"⟩])
      ∧ composedAddAppointment []
          { patientId := "p1", patientName := "John Smith",
            procedureType := "Cleaning", date := ⟨2025, 1, 6⟩,
            time := "9:00 AM", price := 2500, notes := "",
            isRecurring := true, recurringPattern := .weekly,
            occurrences := 3 }
        = some (.error "TypeError: undefined date") :=
  ⟨by decide, rfl⟩

/-! ## Calendar grid: claim C8 -/

theorem jsMonthStart_eq (y m : Nat) (hm : m ≤ 11) :
    jsMonthStart y m = natDays y (m + 1) 1 := by
  unfold jsMonthStart
  have h1 : m / 12 = 0 := by omega
  have h2 : m % 12 = m := by omega
  rw [h1, h2, Nat.add_zero]

theorem jsMonthStart_succ (y m : Nat) (hy : 1 ≤ y) (hm : m ≤ 11) :
    jsMonthStart y (m + 1) = jsMonthStart y m + monthLength y (m + 1) := by
  rcases Nat.lt_or_ge m 11 with h | h
  · rw [jsMonthStart_eq y (m + 1) (by omega), jsMonthStart_eq y m hm]
    exact natDays_succMonth y (m + 1) hy (by omega) (by omega)
  · have hm11 : m = 11 := by omega
    subst hm11
    have h12 : jsMonthStart y 12 = natDays (y + 1) 1 1 := by
      unfold jsMonthStart
      norm_num
    rw [h12, jsMonthStart_eq y 11 (by omega), natDays_decJan y]
    have : monthLength y 12 = 31 := by norm_num [monthLength]
    norm_num
    omega

theorem lastDate_eq (y m : Nat) (hy : 1 ≤ y) (hm : m ≤ 11) :
    (civilOf (jsMonthStart y (m + 1) - 1)).day = monthLength y (m + 1) := by
  have h28 := monthLength_ge28 y (m + 1)
  have hsucc := jsMonthStart_succ y m hy hm
  have hje := jsMonthStart_eq y m hm
  have harg : jsMonthStart y (m + 1) - 1
      = natDays y (m + 1) (monthLength y (m + 1)) := by
    rw [natDays_linear_day y (m + 1) (monthLength y (m + 1)), ← hje]
    omega
  rw [harg, civilOf_natDays y (m + 1) (monthLength y (m + 1)) hy (by omega)
    (by omega) (by omega) (le_refl _)]

set_option maxHeartbeats 1600000 in
/-- Claim C8: for every month (JavaScript year `y ≥ 1`, 0-based month index
`m ≤ 11`) the calendar-day generator returns exactly 42 cells of consecutive
calendar days anchored at the month's first day minus its weekday index:
the cells flagged as current-month are exactly positions
`firstWeekday ≤ i < firstWeekday + monthLength`, the generator's
current-month block length is the true month length, the prefix of
`firstWeekday` cells consists of trailing days of the previous month (the
previous month is long enough and ends exactly at the month start), and
the remaining cells pad the grid to 42 with leading days of the next month
(whose start follows the current month and whose length covers the pad). -/
theorem generateCalendarDays_spec (y m : Nat) (hy : 1 ≤ y) (hm : m ≤ 11) :
    (generateCalendarDays y m).length = 42
      ∧ ((generateCalendarDays y m).map (fun c => c.date)
          = (List.range 42).map
              (fun i => jsMonthStart y m - weekday (jsMonthStart y m) + i))
      ∧ ((generateCalendarDays y m).map (fun c => c.isCurrentMonth)
          = (List.range 42).map
              (fun i => decide (weekday (jsMonthStart y m) ≤ i
                  ∧ i < weekday (jsMonthStart y m) + monthLength y (m + 1))))
      ∧ jsMonthStart y m = natDays y (m + 1) 1
      ∧ weekday (jsMonthStart y m) + monthLength y (m + 1) ≤ 42
      ∧ weekday (jsMonthStart y m)
          ≤ monthLength (if m = 0 then y - 1 else y) (if m = 0 then 12 else m)
      ∧ natDays (if m = 0 then y - 1 else y) (if m = 0 then 12 else m) 1
            + monthLength (if m = 0 then y - 1 else y) (if m = 0 then 12 else m)
          = jsMonthStart y m
      ∧ jsMonthStart y (m + 1) = jsMonthStart y m + monthLength y (m + 1)
      ∧ 42 - (weekday (jsMonthStart y m) + monthLength y (m + 1))
          ≤ monthLength (y + (m + 1) / 12) ((m + 1) % 12 + 1) := by
  have hje := jsMonthStart_eq y m hm
  have hfd6 : weekday (jsMonthStart y m) ≤ 6 := by
    unfold weekday
    omega
  have hL28 := monthLength_ge28 y (m + 1)
  have hL31 := monthLength_le31 y (m + 1)
  have hlast := lastDate_eq y m hy hm
  have hge : 306 ≤ jsMonthStart y m := by
    rw [hje]
    exact natDays_ge y (m + 1) hy (by omega) (by omega)
  have hsucc := jsMonthStart_succ y m hy hm
  have hprev : natDays (if m = 0 then y - 1 else y) (if m = 0 then 12 else m) 1
        + monthLength (if m = 0 then y - 1 else y) (if m = 0 then 12 else m)
      = jsMonthStart y m := by
    rcases Nat.eq_zero_or_pos m with h0 | h0
    · subst h0
      simp only [if_pos rfl]
      have hd := natDays_decJan (y - 1)
      have h31 : monthLength (y - 1) 12 = 31 := by norm_num [monthLength]
      have hy1 : y - 1 + 1 = y := by omega
      rw [hy1] at hd
      rw [hje]
      norm_num
      omega
    · rw [if_neg (by omega), if_neg (by omega), hje]
      exact (natDays_succMonth y m hy h0 hm).symm
  have h28p := monthLength_ge28 (if m = 0 then y - 1 else y)
    (if m = 0 then 12 else m)
  have h28n := monthLength_ge28 (y + (m + 1) / 12) ((m + 1) % 12 + 1)
  have hgen : generateCalendarDays y m
      = ((List.range (weekday (jsMonthStart y m))).reverse.map (fun i =>
          { date := jsMonthStart y m - 1 - i,
            dayOfMonth := (civilOf (jsMonthStart y m - 1 - i)).day,
            isCurrentMonth := false }))
        ++ ((List.range (monthLength y (m + 1))).map (fun k =>
          { date := jsMonthStart y m + k, dayOfMonth := k + 1,
            isCurrentMonth := true }))
        ++ ((List.range (42 - (weekday (jsMonthStart y m)
              + monthLength y (m + 1)))).map (fun k =>
          { date := jsMonthStart y (m + 1) + k,
            dayOfMonth := (civilOf (jsMonthStart y (m + 1) + k)).day,
            isCurrentMonth := false })) := by
    unfold generateCalendarDays
    rw [hlast]
  have hlen : (generateCalendarDays y m).length = 42 := by
    rw [hgen]
    simp only [List.length_append, List.length_map, List.length_reverse,
      List.length_range]
    omega
  refine ⟨hlen, ?_, ?_, hje, by omega, by omega, hprev, hsucc, by omega⟩
  · rw [hgen]
    apply List.ext_getElem
    · simp only [List.length_append, List.length_map, List.length_reverse,
        List.length_range]
      omega
    · intro n h1 h2
      simp only [List.length_append, List.length_map, List.length_reverse,
        List.length_range] at h1
      simp only [List.length_map, List.length_range] at h2
      simp only [List.getElem_map, List.getElem_append, List.getElem_range,
        List.length_map, List.length_reverse, List.length_range]
      split_ifs with hc1 hc2
      · rw [List.getElem_reverse]
        simp only [List.getElem_range, List.length_range]
        omega
      · simp only [List.length_append, List.length_map, List.length_reverse,
          List.length_range] at hc1 hc2
        dsimp only
        omega
      · simp only [List.getElem_map, List.getElem_range, List.length_append,
          List.length_map, List.length_reverse, List.length_range] at hc1 ⊢
        omega
  · rw [hgen]
    apply List.ext_getElem
    · simp only [List.length_append, List.length_map, List.length_reverse,
        List.length_range]
      omega
    · intro n h1 h2
      simp only [List.length_append, List.length_map, List.length_reverse,
        List.length_range] at h1
      simp only [List.length_map, List.length_range] at h2
      simp only [List.getElem_map, List.getElem_append, List.getElem_range,
        List.length_map, List.length_reverse, List.length_range]
      split_ifs with hc1 hc2
      · simp only [List.length_append, List.length_map, List.length_reverse,
          List.length_range] at hc1
        dsimp only
        symm
        rw [decide_eq_false_iff_not]
        omega
      · simp only [List.length_append, List.length_map, List.length_reverse,
          List.length_range] at hc1 hc2
        dsimp only
        symm
        rw [decide_eq_true_eq]
        omega
      · simp only [List.length_append, List.length_map, List.length_reverse,
          List.length_range] at hc1
        dsimp only
        symm
        rw [decide_eq_false_iff_not]
        omega

theorem generateCalendarDays_spec_witness :
    1 ≤ 2025 ∧ 5 ≤ 11
      ∧ ((generateCalendarDays 2025 5).length = 42
          ∧ ((generateCalendarDays 2025 5).map (fun c => c.date)
              = (List.range 42).map
                  (fun i => jsMonthStart 2025 5
                    - weekday (jsMonthStart 2025 5) + i))
          ∧ ((generateCalendarDays 2025 5).map (fun c => c.isCurrentMonth)
              = (List.range 42).map
                  (fun i => decide (weekday (jsMonthStart 2025 5) ≤ i
                      ∧ i < weekday (jsMonthStart 2025 5)
                          + monthLength 2025 (5 + 1))))
          ∧ jsMonthStart 2025 5 = natDays 2025 (5 + 1) 1
          ∧ weekday (jsMonthStart 2025 5) + monthLength 2025 (5 + 1) ≤ 42
          ∧ weekday (jsMonthStart 2025 5)
              ≤ monthLength (if 5 = 0 then 2025 - 1 else 2025)
                  (if 5 = 0 then 12 else 5)
          ∧ natDays (if 5 = 0 then 2025 - 1 else 2025)
                (if 5 = 0 then 12 else 5) 1
                + monthLength (if 5 = 0 then 2025 - 1 else 2025)
                    (if 5 = 0 then 12 else 5)
              = jsMonthStart 2025 5
          ∧ jsMonthStart 2025 (5 + 1)
              = jsMonthStart 2025 5 + monthLength 2025 (5 + 1)
          ∧ 42 - (weekday (jsMonthStart 2025 5) + monthLength 2025 (5 + 1))
              ≤ monthLength (2025 + (5 + 1) / 12) ((5 + 1) % 12 + 1)) :=
  ⟨by decide, by decide, generateCalendarDays_spec 2025 5 (by decide) (by decide)⟩

end DentalBook
